import Mathlib

/-!
Shallow embedding of the two telegraf input plugins of this repository
(`plugins/inputs/imonnit/imonnit.go` and `plugins/inputs/hobolink/hobolink.go`)
together with theorems settling the frozen claims about them.

Conventions of the embedding:
* Go strings are Lean `String`s (lists of characters; all literals involved are
  valid UTF-8, where character-level matching coincides with Go's byte-level
  matching because multi-byte UTF-8 sequences only match at rune boundaries).
* `strings.Split` is modelled by `goSplit`, `strings.Contains` by `goContains`.
* `strconv.ParseFloat` is modelled by `goParseFloat` over exact rationals,
  covering the plain decimal / exponent forms; the float64 rounding step and
  the hex / Inf / NaN / underscore literal forms are outside every input the
  claims mention.  The source discards the returned error (`v, _ :=`), which
  for a syntax error leaves the zero value: `goParseFloatD`.
* Go map writes are modelled on association lists by `mapSet` (replace the
  binding if the key is present, otherwise append); every map in the embedded
  code keeps its keys unique, so the association list determines the map.
* An out-of-range slice index (a Go runtime panic) is modelled by `Option`:
  `none` means the operation panics and nothing more is emitted.
-/

/-- Scanner for Go's `strings.Split` with the non-empty separator `sh :: st`:
walk the string left to right, cut at each leftmost, non-overlapping
occurrence of the separator.  `skip` counts separator characters still to be
consumed after a match (so the recursion is structural on the string). -/
def splitGoAux (sh : Char) (st : List Char) : List Char → Nat → List (List Char)
  | [], _ => [[]]
  | _ :: rest, skip + 1 => splitGoAux sh st rest skip
  | c :: rest, 0 =>
    if List.isPrefixOf (sh :: st) (c :: rest) then
      [] :: splitGoAux sh st rest st.length
    else
      match splitGoAux sh st rest 0 with
      | [] => [[c]]
      | h :: t => (c :: h) :: t

/-- Splitting on a non-empty separator.  Always returns a non-empty list. -/
def splitGo (sh : Char) (st : List Char) (s : List Char) : List (List Char) :=
  splitGoAux sh st s 0

/-- Go's `strings.Split`.  For an empty separator Go explodes the string into
its characters; the plugins only ever split on the non-empty separators
`"|"`, `","`, `" "` and `"Â°"`. -/
def goSplit (s sep : String) : List String :=
  match sep.data with
  | [] => s.data.map (fun c => String.mk [c])
  | c :: t => (splitGo c t s.data).map (fun l => String.mk l)

/-- Boolean substring test on character lists: scan every suffix for the
pattern as a prefix (how Go's `strings.Index` locates a substring). -/
def listContains (sub : List Char) : List Char → Bool
  | [] => sub.isEmpty
  | c :: rest => List.isPrefixOf sub (c :: rest) || listContains sub rest

/-- Go's `strings.Contains`. -/
def goContains (s sub : String) : Bool :=
  listContains sub.data s.data

/-- Value of a list of decimal digit characters. -/
def digitsVal (l : List Char) : Nat :=
  l.foldl (fun a c => 10 * a + (c.toNat - 48)) 0

/-- The unsigned part of the decimal grammar accepted by `strconv.ParseFloat`:
`digits [. digits] [(e|E) [sign] digits]`, with at least one mantissa digit
and nothing left over. -/
def parseUnsignedDec (s : List Char) : Option ℚ :=
  let (ip, r1) := s.span Char.isDigit
  let (fp, r2) :=
    match r1 with
    | '.' :: t => t.span Char.isDigit
    | _ => ([], r1)
  if ip.isEmpty && fp.isEmpty then none
  else
    let mant : ℚ := (digitsVal (ip ++ fp) : ℚ) / (10 : ℚ) ^ fp.length
    match r2 with
    | [] => some mant
    | e :: t =>
      if e == 'e' || e == 'E' then
        let (eneg, t1) :=
          match t with
          | '-' :: u => (true, u)
          | '+' :: u => (false, u)
          | _ => (false, t)
        let (ed, t2) := t1.span Char.isDigit
        if ed.isEmpty || !t2.isEmpty then none
        else some (if eneg then mant / (10 : ℚ) ^ digitsVal ed
                   else mant * (10 : ℚ) ^ digitsVal ed)
      else none

/-- `strconv.ParseFloat` (decimal forms), as an exact rational:
`none` is Go's non-nil error. -/
def goParseFloat (s : String) : Option ℚ :=
  let (neg, l1) :=
    match s.data with
    | '-' :: t => (true, t)
    | '+' :: t => (false, t)
    | _ => (false, s.data)
  match parseUnsignedDec l1 with
  | none => none
  | some q => some (if neg then -q else q)

/-- `v, _ := strconv.ParseFloat(s, 64)`: the error is discarded, a failed
parse leaves the zero value in `v`. -/
def goParseFloatD (s : String) : ℚ :=
  (goParseFloat s).getD 0

/-- A write `m[k] = v` on a Go map, on an association list: replace the first
binding of `k` if present, otherwise append the new binding. -/
def mapSet {α : Type} (m : List (String × α)) (k : String) (v : α) :
    List (String × α) :=
  match m with
  | [] => [(k, v)]
  | (k', v') :: rest =>
    if k' = k then (k, v) :: rest else (k', v') :: mapSet rest k v

/-- One `acc.AddFields(measurement, fields, tags, ts)` call
(`telegraf.Accumulator` is the external collaborator; a point is its
argument tuple).  Timestamps are abstract instants (`time.Now()` is passed
in as a parameter). -/
structure MetricPoint where
  measurement : String
  fields : List (String × ℚ)
  tags : List (String × String)
  ts : Nat
deriving DecidableEq, Repr

/-- `imonnit.SensorDetail`, trimmed to the fields `ProcessResults` reads
(`SensorName` and `CurrentReading`); the remaining JSON fields (IDs, dates,
battery/signal levels, thresholds, ...) are carried by the source struct but
never read by the embedded operations. -/
structure SensorDetail where
  SensorName : String
  CurrentReading : String
deriving DecidableEq, Repr

/-- `imonnit.SensorList`: the decoded envelope of `GET <server>/sensorlist/`. -/
structure SensorListRes where
  Method : String
  Result : List SensorDetail
deriving DecidableEq, Repr

/-- The tag map built from `sensor.SensorName` in `ProcessResults`
(imonnit.go:77-94): split on `"|"`; exactly 9 segments give the 9-level
hierarchy, any other count collapses to a single `customer` tag. -/
def baseTags (name : String) : List (String × String) :=
  let siteName := goSplit name "|"
  if siteName.length = 9 then
    let t := mapSet [] "customer" (siteName.getD 0 "")
    let t := mapSet t "country" (siteName.getD 1 "")
    let t := mapSet t "store" (siteName.getD 2 "")
    let t := mapSet t "zone" (siteName.getD 3 "")
    let t := mapSet t "equipment" (siteName.getD 4 "")
    let t := mapSet t "equipmentType" (siteName.getD 5 "")
    let t := mapSet t "cargo" (siteName.getD 6 "")
    let t := mapSet t "sensor" (siteName.getD 7 "")
    mapSet t "sensorID" (siteName.getD 8 "")
  else
    mapSet [] "customer" name

/-- The body of the `for _, sensor := range sensors.Result` loop of
`ProcessResults` (imonnit.go:77-124) for one sensor: the list of
`acc.AddFields` calls it makes, or `none` when one of the unguarded slice
indices (`vals[1..3]`, token `[3]` of a comma segment) is out of range and
the loop panics before emitting anything for this sensor. -/
def processSensor (ts : Nat) (sensor : SensorDetail) : Option (List MetricPoint) :=
  let tags := baseTags sensor.SensorName
  if goContains sensor.CurrentReading "kWh" then
    -- composite energy reading: `m` is the element-wise copy of `tags`
    let m := tags
    let vals := goSplit sensor.CurrentReading ","
    let tags2 := mapSet tags "unit" "kWh"
    let m2 := mapSet m "unit" "amps"
    match vals[1]?, vals[2]?, vals[3]? with
    | some v1, some v2, some v3 =>
      match (goSplit v1 " ")[3]?, (goSplit v2 " ")[3]?, (goSplit v3 " ")[3]? with
      | some t1, some t2, some t3 =>
        let fields :=
          mapSet [] "current"
            (goParseFloatD ((goSplit (vals.getD 0 "") " ").getD 0 ""))
        let amps :=
          mapSet (mapSet (mapSet [] "average" (goParseFloatD t1))
            "maximum" (goParseFloatD t2)) "minimum" (goParseFloatD t3)
        some [⟨"imonnit", fields, tags2, ts⟩, ⟨"imonnit", amps, m2, ts⟩]
      | _, _, _ => none
    | _, _, _ => none
  else
    -- simple reading: split on the literal separator bytes of imonnit.go:118
    let vals := goSplit sensor.CurrentReading "Â°"
    let tags2 := mapSet tags "unit" "C"
    let fields := mapSet [] "current" (goParseFloatD (vals.getD 0 ""))
    some [⟨"imonnit", fields, tags2, ts⟩]

/-- The loop of `ProcessResults` over the sensor records, concatenating the
emitted points; `none` when some record panics (the loop aborts there). -/
def processLoop (ts : Nat) : List SensorDetail → Option (List MetricPoint)
  | [] => some []
  | sensor :: rest => do
    let ps ← processSensor ts sensor
    let qs ← processLoop ts rest
    pure (ps ++ qs)

/-- `(*Sensor).ProcessResults` (imonnit.go:74-129). -/
def ProcessResults (ts : Nat) (sensors : SensorListRes) :
    Option (List MetricPoint) :=
  processLoop ts sensors.Result

/-- Well-formedness of a composite reading: what the unguarded indices of
imonnit.go:107-110 need in order not to panic — at least four comma
segments, and at least four space tokens in each of segments 2-4. -/
def compositeWF (reading : String) : Prop :=
  4 ≤ (goSplit reading ",").length ∧
  4 ≤ (goSplit ((goSplit reading ",").getD 1 "") " ").length ∧
  4 ≤ (goSplit ((goSplit reading ",").getD 2 "") " ").length ∧
  4 ≤ (goSplit ((goSplit reading ",").getD 3 "") " ").length

instance (reading : String) : Decidable (compositeWF reading) := by
  unfold compositeWF; infer_instance

/-- The error values the two plugins produce. -/
inductive GoErr
  /-- a `fmt.Errorf` with a fixed message (e.g. the imonnit token guard) -/
  | errMsg (msg : String)
  /-- hobolink.go:103: `"hobolink: API responded with status-code %d,
  expected %d"` — carries the received and the expected status code -/
  | statusErr (got expected : Nat)
  /-- a `json.Decoder.Decode` failure -/
  | decodeErr (msg : String)
  /-- a `client.Do` transport failure -/
  | transportErr (msg : String)
deriving DecidableEq, Repr

/-- `hobolink.Observation` (trimmed to representative fields). -/
structure Observation where
  loggerSerialNumber : String
  channelNumber : Int
  siValue : ℚ
deriving DecidableEq, Repr

/-- `hobolink.Observations`: the decoded response envelope. -/
structure Observations where
  observationList : List Observation
  message : String
deriving DecidableEq, Repr

/-- Response handling of `(*HOBOlink).parseJSON` (hobolink.go:102-112), as a
function of the received status code and of the outcome the JSON decoder
would produce on the body: a non-200 status fails first, with both codes,
and the body is not decoded. -/
def hobolinkHandleResponse (status : Nat)
    (decodeBody : Except String Observations) : Except GoErr Observations :=
  if status ≠ 200 then .error (.statusErr status 200)
  else
    match decodeBody with
    | .error e => .error (.decodeErr e)
    | .ok v => .ok v

/-- Response handling of `(*Sensor).SensorList` (imonnit.go:138-149): the
source never inspects `resp.StatusCode`; the body is decoded whatever the
status was. -/
def imonnitSensorListHandleResponse (_status : Nat)
    (decodeBody : Except String SensorListRes) : Except GoErr SensorListRes :=
  match decodeBody with
  | .error e => .error (.decodeErr e)
  | .ok v => .ok v

/-- The `*http.Client` both plugins build: `createHTTPClient` copies the
configured timeout into the transport's response-header timeout and the
client timeout. -/
structure HTTPClient where
  responseHeaderTimeout : Nat
  timeout : Nat
deriving DecidableEq, Repr

/-- The `imonnit.Sensor` plugin instance (its configuration and the lazily
created client). -/
structure SensorState where
  c : Option HTTPClient
  Server : String
  Token : String
  HttpTimeout : Nat
deriving DecidableEq, Repr

/-- `(*Sensor).createHTTPClient` (imonnit.go:174-186): always succeeds. -/
def imonnitCreateHTTPClient (s : SensorState) : Except GoErr HTTPClient :=
  .ok ⟨s.HttpTimeout, s.HttpTimeout⟩

/-- The observable side effects of one `Gather` call. -/
inductive VendorEffect
  /-- one outbound HTTP request to the vendor -/
  | httpRequest (url : String)
  /-- one `acc.AddFields` delivery -/
  | addFields (p : MetricPoint)
deriving DecidableEq, Repr

/-- How a `Gather` call ends: a normal return carrying Go's `error` result
(`none` = nil), or a runtime panic escaping it. -/
inductive GatherRet
  | ret (err : Option GoErr)
  | panicked
deriving DecidableEq, Repr

/-- Whether an effect is an outbound vendor HTTP request. -/
def isRequest : VendorEffect → Bool
  | .httpRequest _ => true
  | .addFields _ => false

/-- The environment of one imonnit `Gather` call: the outcome of the single
HTTP round-trip (transport error, or status code plus the outcome the JSON
decoder produces on the body), and the collection instant. -/
structure ImonnitEnv where
  transport : Except String (Nat × Except String SensorListRes)
  ts : Nat

/-- `(*Sensor).Gather` after the token guard and client creation
(imonnit.go:61-70): call `SensorList`, then `ProcessResults`. -/
def imonnitGatherRest (s : SensorState) (env : ImonnitEnv) :
    SensorState × List VendorEffect × GatherRet :=
  let req := VendorEffect.httpRequest (s.Server ++ "/sensorlist/" ++ s.Token)
  match env.transport with
  | .error m => (s, [req], .ret (some (.transportErr m)))
  | .ok (status, body) =>
    match imonnitSensorListHandleResponse status body with
    | .error e => (s, [req], .ret (some e))
    | .ok sl =>
      match ProcessResults env.ts sl with
      | none => (s, [req], .panicked)
      | some pts => (s, req :: pts.map .addFields, .ret none)

/-- `(*Sensor).Gather` (imonnit.go:45-71): empty-token guard, lazy client
creation, then the request/processing pipeline.  Returns the new instance
state, the effects performed, and how the call ended. -/
def imonnitGather (s : SensorState) (env : ImonnitEnv) :
    SensorState × List VendorEffect × GatherRet :=
  if s.Token = "" then
    (s, [], .ret (some (.errMsg "token required for the imonnit API")))
  else
    match s.c with
    | none =>
      match imonnitCreateHTTPClient s with
      | .error e => (s, [], .ret (some e))
      | .ok c => imonnitGatherRest { s with c := some c } env
    | some _ => imonnitGatherRest s env

/-- A sequence of `Gather` calls on the same imonnit instance. -/
def imonnitGatherSeq (s : SensorState) : List ImonnitEnv → SensorState
  | [] => s
  | env :: rest => imonnitGatherSeq (imonnitGather s env).1 rest

/-- How many calls of the sequence construct an HTTP client (the client
field goes from `none` to `some`). -/
def imonnitCreations (s : SensorState) : List ImonnitEnv → Nat
  | [] => 0
  | env :: rest =>
    let s' := (imonnitGather s env).1
    (if s.c = none ∧ s'.c ≠ none then 1 else 0) + imonnitCreations s' rest

/-- The `hobolink.HOBOlink` plugin instance. -/
structure HOBOState where
  client : Option HTTPClient
  User : String
  Password : String
  Server : String
  Token : String
  SerialNumbers : List String
  HTTPTimeout : Nat
deriving DecidableEq, Repr

/-- `(*HOBOlink).createHTTPClient` (hobolink.go:131-142): always succeeds. -/
def hoboCreateHTTPClient (h : HOBOState) : Except GoErr HTTPClient :=
  .ok ⟨h.HTTPTimeout, h.HTTPTimeout⟩

/-- The body of the per-device goroutine of `(*HOBOlink).Gather`
(hobolink.go:58-60): it contains only `defer wg.Done()` — it performs no
request and no accumulator call (`gatherStats` is defined but never
invoked). -/
def hoboTaskBody (_serial : String) : List VendorEffect := []

/-- `(*HOBOlink).Gather` (hobolink.go:44-65): lazy client creation, spawn
one (empty) task per serial number, join, return nil.  The effects are the
concatenation of the task bodies' effects. -/
def hoboGather (st : HOBOState) : HOBOState × List VendorEffect × Option GoErr :=
  match st.client with
  | none =>
    match hoboCreateHTTPClient st with
    | .error e => (st, [], some e)
    | .ok c =>
      ({ st with client := some c },
       (st.SerialNumbers.map hoboTaskBody).flatten, none)
  | some _ => (st, (st.SerialNumbers.map hoboTaskBody).flatten, none)

/-- A sequence of `Gather` calls on the same hobolink instance. -/
def hoboGatherSeq (st : HOBOState) : Nat → HOBOState
  | 0 => st
  | n + 1 => hoboGatherSeq (hoboGather st).1 n

/-- Where the coordinator of `(*HOBOlink).Gather` is: still inside the spawn
loop, blocked in `wg.Wait()`, or past it (`return nil`). -/
inductive MainPhase
  | spawnLoop
  | waiting
  | returned
deriving DecidableEq, Repr

/-- The fan-out of `(*HOBOlink).Gather` (hobolink.go:54-64) as a small
interleaving system: `toSpawn` serials are left to start, `running` tasks
have started and not yet run their deferred `wg.Done()`, `wgCounter` is the
`sync.WaitGroup` counter. -/
structure FanoutState where
  toSpawn : Nat
  running : Nat
  wgCounter : Int
  phase : MainPhase
deriving DecidableEq, Repr

/-- `wg.Add(len(h.SerialNumbers))` has run (hobolink.go:55); nothing spawned
yet. -/
def fanoutInit (n : Nat) : FanoutState :=
  ⟨n, 0, (n : Int), .spawnLoop⟩

/-- Atomic transitions of coordinator and tasks.  Any interleaving is
allowed: a task may finish while the coordinator is still spawning. -/
inductive FanoutStep : FanoutState → FanoutState → Prop
  /-- the coordinator starts one goroutine (hobolink.go:58) -/
  | spawn (k r : Nat) (c : Int) :
      FanoutStep ⟨k + 1, r, c, .spawnLoop⟩ ⟨k, r + 1, c, .spawnLoop⟩
  /-- the spawn loop is exhausted; the coordinator reaches `wg.Wait()` -/
  | beginWait (r : Nat) (c : Int) :
      FanoutStep ⟨0, r, c, .spawnLoop⟩ ⟨0, r, c, .waiting⟩
  /-- a running task finishes: its body is empty, its deferred `wg.Done()`
  decrements the counter -/
  | taskDone (k r : Nat) (c : Int) (p : MainPhase) :
      FanoutStep ⟨k, r + 1, c, p⟩ ⟨k, r, c - 1, p⟩
  /-- `wg.Wait()` releases the coordinator only at counter zero, and
  `Gather` returns -/
  | waitRelease (k r : Nat) :
      FanoutStep ⟨k, r, 0, .waiting⟩ ⟨k, r, 0, .returned⟩

/-- States reachable from a poll cycle over `n` configured serials. -/
inductive FanoutReach (n : Nat) : FanoutState → Prop
  | init : FanoutReach n (fanoutInit n)
  | step {s s' : FanoutState} :
      FanoutReach n s → FanoutStep s s' → FanoutReach n s'

/-! ## Lemmas about the string layer -/

theorem splitGoAux_ne_nil (sh : Char) (st : List Char) :
    ∀ (l : List Char) (k : Nat), splitGoAux sh st l k ≠ [] := by
  intro l
  induction l with
  | nil => intro k; cases k <;> simp [splitGoAux]
  | cons c rest ih =>
    intro k
    cases k with
    | succ k' => simpa [splitGoAux] using ih k'
    | zero =>
      by_cases h : List.isPrefixOf (sh :: st) (c :: rest) = true
      · simp [splitGoAux, h]
      · simp only [splitGoAux, Bool.not_eq_true] at h ⊢
        rw [h]
        cases hr : splitGoAux sh st rest 0 <;> simp

theorem splitGoAux_skip (sh : Char) (st : List Char) :
    ∀ (p b : List Char), splitGoAux sh st (p ++ b) p.length = splitGoAux sh st b 0 := by
  intro p
  induction p with
  | nil => intro b; rfl
  | cons c p' ih => intro b; simpa [splitGoAux] using ih b

theorem isPrefixOf_self_append :
    ∀ (l b : List Char), List.isPrefixOf l (l ++ b) = true := by
  intro l
  induction l with
  | nil => intro b; simp
  | cons c l' ih => intro b; simp [List.isPrefixOf, ih]

theorem isPrefixOf_cons_of_ne {sh c : Char} (st rest : List Char) (h : sh ≠ c) :
    List.isPrefixOf (sh :: st) (c :: rest) = false := by
  rw [List.isPrefixOf_cons₂]
  simp [beq_iff_eq, h]

theorem splitGo_no_head {sh : Char} (st : List Char) :
    ∀ {s : List Char}, sh ∉ s → splitGo sh st s = [s] := by
  intro s
  induction s with
  | nil => intro _; rfl
  | cons c rest ih =>
    intro h
    have hc : sh ≠ c := fun e => h (e ▸ List.mem_cons_self c rest)
    have hr : sh ∉ rest := fun e => h (List.mem_cons_of_mem c e)
    have hrec : splitGoAux sh st rest 0 = [rest] := ih hr
    show splitGoAux sh st (c :: rest) 0 = [c :: rest]
    simp only [splitGoAux]
    rw [if_neg (by rw [isPrefixOf_cons_of_ne st rest hc]; simp), hrec]

theorem splitGo_append {sh : Char} (st : List Char) :
    ∀ {a : List Char} (b : List Char), sh ∉ a →
      splitGo sh st (a ++ (sh :: st) ++ b) = a :: splitGo sh st b := by
  intro a
  induction a with
  | nil =>
    intro b _
    show splitGoAux sh st (sh :: (st ++ b)) 0 = [] :: splitGoAux sh st b 0
    have h1 : List.isPrefixOf (sh :: st) (sh :: (st ++ b)) = true :=
      isPrefixOf_self_append (sh :: st) b
    simp only [splitGoAux]
    rw [if_pos h1, splitGoAux_skip]
  | cons c a' ih =>
    intro b h
    have hc : sh ≠ c := fun e => h (e ▸ List.mem_cons_self c a')
    have ha : sh ∉ a' := fun e => h (List.mem_cons_of_mem c e)
    have hrec : splitGoAux sh st (a' ++ (sh :: st) ++ b) 0 =
        a' :: splitGoAux sh st b 0 := ih b ha
    show splitGoAux sh st (c :: (a' ++ (sh :: st) ++ b)) 0 =
        (c :: a') :: splitGoAux sh st b 0
    simp only [splitGoAux]
    rw [if_neg (by rw [isPrefixOf_cons_of_ne _ _ hc]; simp), hrec]

theorem listContains_append (sub : List Char) :
    ∀ (pre post : List Char), listContains sub (pre ++ sub ++ post) = true := by
  intro pre
  induction pre with
  | nil =>
    intro post
    cases hs : sub with
    | nil =>
      cases post with
      | nil => rfl
      | cons c r => simp [listContains]
    | cons c r =>
      show listContains (c :: r) ((c :: r) ++ post) = true
      simp only [listContains, Bool.or_eq_true]
      exact Or.inl (isPrefixOf_self_append (c :: r) post)
  | cons c pre' ih =>
    intro post
    have h1 := ih post
    show listContains sub (c :: (pre' ++ sub ++ post)) = true
    simp only [listContains, Bool.or_eq_true]
    exact Or.inr h1

theorem goSplit_eq_of_sep {sep : String} {sh : Char} {st : List Char}
    (hsep : sep.data = sh :: st) (s : String) :
    goSplit s sep = (splitGo sh st s.data).map (fun l => String.mk l) := by
  simp only [goSplit, hsep]

theorem goSplit_single {sep : String} {sh : Char} {st : List Char}
    (hsep : sep.data = sh :: st) {s : String} (h : sh ∉ s.data) :
    goSplit s sep = [s] := by
  rw [goSplit_eq_of_sep hsep, splitGo_no_head st h]
  rfl

theorem goSplit_append_sep {sep : String} {sh : Char} {st : List Char}
    (hsep : sep.data = sh :: st) {a : String} (b : String) (h : sh ∉ a.data) :
    goSplit (a ++ sep ++ b) sep = a :: goSplit b sep := by
  rw [goSplit_eq_of_sep hsep, goSplit_eq_of_sep hsep]
  have hd : (a ++ sep ++ b).data = a.data ++ (sh :: st) ++ b.data := by
    simp only [String.data_append, hsep]
  rw [hd, splitGo_append st b.data h]
  rfl

theorem goContains_append (pre sub post : String) :
    goContains (pre ++ sub ++ post) sub = true := by
  unfold goContains
  have hd : (pre ++ sub ++ post).data = pre.data ++ sub.data ++ post.data := by
    simp only [String.data_append]
  rw [hd]
  exact listContains_append sub.data pre.data post.data

theorem getElem?_eq_some_getD {α : Type} {l : List α} {i : Nat} (d : α)
    (h : i < l.length) : l[i]? = some (l.getD i d) := by
  rw [List.getD_eq_getElem?_getD, List.getElem?_eq_getElem h]
  rfl

/-! ## Lemmas about the tag maps -/

theorem mapSet_fresh {α : Type} {m : List (String × α)} {k : String}
    (h : ∀ p ∈ m, p.1 ≠ k) (v : α) : mapSet m k v = m ++ [(k, v)] := by
  induction m with
  | nil => rfl
  | cons p rest ih =>
    obtain ⟨k', v'⟩ := p
    have h1 : k' ≠ k := h (k', v') (List.mem_cons_self _ _)
    have h2 : ∀ q ∈ rest, q.1 ≠ k := fun q hq => h q (List.mem_cons_of_mem _ hq)
    simp [mapSet, h1, ih h2]

theorem baseTags_of_nine {name : String} (h : (goSplit name "|").length = 9) :
    baseTags name =
      [("customer", (goSplit name "|").getD 0 ""),
       ("country", (goSplit name "|").getD 1 ""),
       ("store", (goSplit name "|").getD 2 ""),
       ("zone", (goSplit name "|").getD 3 ""),
       ("equipment", (goSplit name "|").getD 4 ""),
       ("equipmentType", (goSplit name "|").getD 5 ""),
       ("cargo", (goSplit name "|").getD 6 ""),
       ("sensor", (goSplit name "|").getD 7 ""),
       ("sensorID", (goSplit name "|").getD 8 "")] := by
  simp only [baseTags]
  rw [if_pos h]
  rfl

theorem baseTags_of_other {name : String} (h : ¬ (goSplit name "|").length = 9) :
    baseTags name = [("customer", name)] := by
  simp only [baseTags]
  rw [if_neg h]
  rfl

theorem baseTags_key_ne_unit (name : String) :
    ∀ p ∈ baseTags name, p.1 ≠ "unit" := by
  by_cases h : (goSplit name "|").length = 9
  · rw [baseTags_of_nine h]
    intro p hp
    simp only [List.mem_cons, List.not_mem_nil, or_false] at hp
    rcases hp with rfl | rfl | rfl | rfl | rfl | rfl | rfl | rfl | rfl <;> simp
  · rw [baseTags_of_other h]
    intro p hp
    simp only [List.mem_cons, List.not_mem_nil, or_false] at hp
    rcases hp with rfl
    simp

theorem mapSet_unit (name : String) (u : String) :
    mapSet (baseTags name) "unit" u = baseTags name ++ [("unit", u)] :=
  mapSet_fresh (baseTags_key_ne_unit name) u

/-! ## Core behavior of the reading decoder -/

theorem processSensor_simple {ts : Nat} {sensor : SensorDetail}
    (h : goContains sensor.CurrentReading "kWh" = false) :
    processSensor ts sensor =
      some [⟨"imonnit",
        [("current", goParseFloatD ((goSplit sensor.CurrentReading "Â°").getD 0 ""))],
        baseTags sensor.SensorName ++ [("unit", "C")], ts⟩] := by
  simp [processSensor, h, mapSet_unit, mapSet]

theorem processSensor_composite {ts : Nat} {sensor : SensorDetail}
    {v1 v2 v3 t1 t2 t3 : String}
    (hk : goContains sensor.CurrentReading "kWh" = true)
    (hv1 : (goSplit sensor.CurrentReading ",")[1]? = some v1)
    (hv2 : (goSplit sensor.CurrentReading ",")[2]? = some v2)
    (hv3 : (goSplit sensor.CurrentReading ",")[3]? = some v3)
    (ht1 : (goSplit v1 " ")[3]? = some t1)
    (ht2 : (goSplit v2 " ")[3]? = some t2)
    (ht3 : (goSplit v3 " ")[3]? = some t3) :
    processSensor ts sensor =
      some [⟨"imonnit",
        [("current", goParseFloatD
          ((goSplit ((goSplit sensor.CurrentReading ",").getD 0 "") " ").getD 0 ""))],
        baseTags sensor.SensorName ++ [("unit", "kWh")], ts⟩,
       ⟨"imonnit",
        [("average", goParseFloatD t1), ("maximum", goParseFloatD t2),
         ("minimum", goParseFloatD t3)],
        baseTags sensor.SensorName ++ [("unit", "amps")], ts⟩] := by
  simp [processSensor, hk, hv1, hv2, hv3, ht1, ht2, ht3, mapSet_unit, mapSet]

theorem processSensor_emits {ts : Nat} {sensor : SensorDetail}
    (hwf : goContains sensor.CurrentReading "kWh" = true →
      compositeWF sensor.CurrentReading) :
    ∃ pts, processSensor ts sensor = some pts ∧ 1 ≤ pts.length := by
  by_cases hk : goContains sensor.CurrentReading "kWh" = true
  · obtain ⟨h4, h1, h2, h3⟩ := hwf hk
    refine ⟨_, processSensor_composite hk
      (getElem?_eq_some_getD "" (by omega))
      (getElem?_eq_some_getD "" (by omega))
      (getElem?_eq_some_getD "" (by omega))
      (getElem?_eq_some_getD "" (by omega))
      (getElem?_eq_some_getD "" (by omega))
      (getElem?_eq_some_getD "" (by omega)), by simp⟩
  · rw [Bool.not_eq_true] at hk
    exact ⟨_, processSensor_simple hk, by simp⟩

theorem processLoop_chunks {ts : Nat} :
    ∀ {sensors : List SensorDetail},
      (∀ sensor ∈ sensors, ∃ pts,
        processSensor ts sensor = some pts ∧ 1 ≤ pts.length) →
      ∃ ptss : List (List MetricPoint),
        processLoop ts sensors = some ptss.flatten ∧
        ptss.length = sensors.length ∧ ∀ l ∈ ptss, 1 ≤ l.length := by
  intro sensors
  induction sensors with
  | nil => intro _; exact ⟨[], rfl, rfl, by simp⟩
  | cons sensor rest ih =>
    intro h
    obtain ⟨ps, hps, hplen⟩ := h sensor (List.mem_cons_self _ _)
    obtain ⟨qss, hqs, hqlen, hqall⟩ := ih (fun x hx => h x (List.mem_cons_of_mem _ hx))
    refine ⟨ps :: qss, ?_, by simp [hqlen], ?_⟩
    · simp [processLoop, hps, hqs]
    · intro l hl
      rcases List.mem_cons.mp hl with rfl | hl
      · exact hplen
      · exact hqall l hl

/-! ## Lemmas about the fan-out model -/

theorem fanout_inv {n : Nat} {s : FanoutState} (h : FanoutReach n s) :
    s.wgCounter = (s.toSpawn : Int) + (s.running : Int) ∧
    (s.phase ≠ .spawnLoop → s.toSpawn = 0) ∧
    (s.phase = .returned → s.wgCounter = 0) := by
  induction h with
  | init => simp [fanoutInit]
  | step hr hstep ih =>
    obtain ⟨h1, h2, h3⟩ := ih
    cases hstep with
    | spawn k r c =>
      refine ⟨?_, by simp, by simp⟩
      simp only at h1 ⊢
      push_cast at h1 ⊢
      omega
    | beginWait r c =>
      exact ⟨h1, fun _ => rfl, by simp⟩
    | taskDone k r c p =>
      refine ⟨?_, fun hp => h2 hp, fun hp => ?_⟩
      · simp only at h1 ⊢
        push_cast at h1 ⊢
        omega
      · have hc := h3 hp
        simp only at h1 hc ⊢
        omega
    | waitRelease k r =>
      exact ⟨h1, fun _ => h2 (by simp), fun _ => rfl⟩

/-! ## Lemmas about the Gather state machines -/

theorem imonnitGatherRest_state (s : SensorState) (env : ImonnitEnv) :
    (imonnitGatherRest s env).1 = s := by
  rcases henv : env.transport with m | p
  · simp [imonnitGatherRest, henv]
  · obtain ⟨status, body⟩ := p
    rcases h2 : imonnitSensorListHandleResponse status body with e | sl
    · simp [imonnitGatherRest, henv, h2]
    · rcases h3 : ProcessResults env.ts sl with _ | pts <;>
        simp [imonnitGatherRest, henv, h2, h3]

theorem imonnitGather_c_some {s : SensorState} {cl : HTTPClient}
    (env : ImonnitEnv) (h : s.c = some cl) :
    ((imonnitGather s env).1).c = some cl := by
  by_cases ht : s.Token = ""
  · simp [imonnitGather, ht, h]
  · simp [imonnitGather, ht, h, imonnitGatherRest_state]

theorem imonnitGather_c_none {s : SensorState} (env : ImonnitEnv)
    (h : s.c = none) (ht : ¬ s.Token = "") :
    ((imonnitGather s env).1).c = some ⟨s.HttpTimeout, s.HttpTimeout⟩ := by
  simp [imonnitGather, ht, h, imonnitCreateHTTPClient, imonnitGatherRest_state]

theorem imonnitGatherSeq_c_some {cl : HTTPClient} :
    ∀ (envs : List ImonnitEnv) {s : SensorState}, s.c = some cl →
      (imonnitGatherSeq s envs).c = some cl := by
  intro envs
  induction envs with
  | nil => intro s h; exact h
  | cons env rest ih => intro s h; exact ih (imonnitGather_c_some env h)

theorem imonnitCreations_of_some {cl : HTTPClient} :
    ∀ (envs : List ImonnitEnv) {s : SensorState}, s.c = some cl →
      imonnitCreations s envs = 0 := by
  intro envs
  induction envs with
  | nil => intro s _; rfl
  | cons env rest ih =>
    intro s h
    have hs' := imonnitGather_c_some env h
    simp only [imonnitCreations]
    rw [if_neg (by simp [h])]
    simpa using ih hs'

theorem imonnitCreations_le_one :
    ∀ (envs : List ImonnitEnv) (s : SensorState), imonnitCreations s envs ≤ 1 := by
  intro envs
  induction envs with
  | nil => intro s; simp [imonnitCreations]
  | cons env rest ih =>
    intro s
    by_cases h : s.c = none
    · by_cases ht : s.Token = ""
      · have hst : (imonnitGather s env).1 = s := by simp [imonnitGather, ht]
        simp only [imonnitCreations, hst]
        rw [if_neg (by simp [h])]
        simpa using ih s
      · have hc := imonnitGather_c_none env h ht
        have h0 := imonnitCreations_of_some rest hc
        simp only [imonnitCreations, h0]
        split <;> omega
    · obtain ⟨cl, hcl⟩ := Option.ne_none_iff_exists'.mp h
      simp [imonnitCreations_of_some (env :: rest) hcl]

theorem hoboTaskBody_flatten (l : List String) :
    (l.map hoboTaskBody).flatten = [] := by
  induction l with
  | nil => rfl
  | cons a r ih => simp [hoboTaskBody, ih]

theorem hoboGather_c_some {st : HOBOState} {cl : HTTPClient}
    (h : st.client = some cl) : ((hoboGather st).1).client = some cl := by
  simp [hoboGather, h]

theorem hoboGather_c_none {st : HOBOState} (h : st.client = none) :
    ((hoboGather st).1).client = some ⟨st.HTTPTimeout, st.HTTPTimeout⟩ := by
  simp [hoboGather, h, hoboCreateHTTPClient]

theorem hoboGather_silent (st : HOBOState) :
    (hoboGather st).2.1 = [] ∧ (hoboGather st).2.2 = none := by
  rcases h : st.client with _ | cl <;>
    simp [hoboGather, h, hoboCreateHTTPClient, hoboTaskBody_flatten]

theorem hoboGatherSeq_c_some {cl : HTTPClient} :
    ∀ (n : Nat) {st : HOBOState}, st.client = some cl →
      (hoboGatherSeq st n).client = some cl := by
  intro n
  induction n with
  | zero => intro st h; exact h
  | succ n' ih => intro st h; exact ih (hoboGather_c_some h)

/-! ## The claims -/

/-- Claim C2 (confirmed): for every device-name string, the tag extraction in
`ProcessResults` is total and yields exactly one of two shapes: if splitting
the name on `"|"` gives exactly 9 segments, exactly the 9 named tags
customer, country, store, zone, equipment, equipmentType, cargo, sensor,
sensorID bound to segments 1-9 in order; for any other segment count,
exactly the single tag customer = raw name.  No partial-depth mapping. -/
theorem claim_C2 (name : String) :
    ((goSplit name "|").length = 9 →
      baseTags name =
        [("customer", (goSplit name "|").getD 0 ""),
         ("country", (goSplit name "|").getD 1 ""),
         ("store", (goSplit name "|").getD 2 ""),
         ("zone", (goSplit name "|").getD 3 ""),
         ("equipment", (goSplit name "|").getD 4 ""),
         ("equipmentType", (goSplit name "|").getD 5 ""),
         ("cargo", (goSplit name "|").getD 6 ""),
         ("sensor", (goSplit name "|").getD 7 ""),
         ("sensorID", (goSplit name "|").getD 8 "")]) ∧
    ((goSplit name "|").length ≠ 9 → baseTags name = [("customer", name)]) :=
  ⟨fun h => baseTags_of_nine h, fun h => baseTags_of_other h⟩

/-- Witness for C2: both shapes at concrete names. -/
theorem claim_C2_witness :
    baseTags "Acme|US|Store12|ZoneA|Freezer|Refrigeration|Dairy|TempProbe|SN001" =
      [("customer", "Acme"), ("country", "US"), ("store", "Store12"),
       ("zone", "ZoneA"), ("equipment", "Freezer"),
       ("equipmentType", "Refrigeration"), ("cargo", "Dairy"),
       ("sensor", "TempProbe"), ("sensorID", "SN001")] ∧
    baseTags "just-a-name" = [("customer", "just-a-name")] := by
  constructor
  · rw [(claim_C2 _).1 (by decide)]
    decide
  · exact (claim_C2 "just-a-name").2 (by decide)

/-- Claim C6, counterexample: the iMonnit client decodes the body of a
status-500 response into results and raises no status error at all,
contradicting the claim that a non-2xx vendor response fails with an error
naming the received and expected status codes and is never decoded. -/
theorem claim_C6_counterexample :
    imonnitSensorListHandleResponse 500 (.ok ⟨"SensorList", []⟩) =
      .ok ⟨"SensorList", []⟩ ∧ ¬ (200 ≤ 500 ∧ 500 ≤ 299) := by
  exact ⟨rfl, by omega⟩

/-- Claim C6 (corrected): the HOBOlink client rejects every non-200 (hence
every non-2xx) response with an error carrying both the received and the
expected status code, without decoding the body; the iMonnit client,
however, performs no status check at all — its result is independent of the
status code, and the body is decoded whatever the status was. -/
theorem claim_C6_amended :
    (∀ (status : Nat) (body : Except String Observations), status ≠ 200 →
        hobolinkHandleResponse status body = .error (.statusErr status 200)) ∧
    (∀ (status status' : Nat) (body : Except String SensorListRes),
        imonnitSensorListHandleResponse status body =
          imonnitSensorListHandleResponse status' body) := by
  constructor
  · intro status body h
    simp [hobolinkHandleResponse, h]
  · intro _ _ _
    rfl

/-- Witness for C6: the HOBOlink handler of a status-500 response with a
well-formed body fails with the two status codes. -/
theorem claim_C6_witness :
    hobolinkHandleResponse 500 (.ok ⟨[], "OK"⟩) = .error (.statusErr 500 200) :=
  claim_C6_amended.1 500 (.ok ⟨[], "OK"⟩) (by omega)

/-- Claim C7, counterexample: the per-device task body of `HOBOlink.Gather`
issues zero vendor requests, not exactly one — the goroutine body is empty
(`gatherStats` is never invoked). -/
theorem claim_C7_counterexample :
    (hoboTaskBody "dev1").countP (fun e => isRequest e) = 0 ∧ (0 : Nat) ≠ 1 := by
  exact ⟨rfl, by omega⟩

/-- Claim C7 (corrected): one `HOBOlink.Gather` call over `n` configured
serials starts exactly `n` concurrent tasks, all before awaiting any of
them (the coordinator leaves the spawn loop only with `toSpawn = 0`), and
does not return before all `n` have completed (in every reachable returned
state nothing is left to spawn, nothing is running, and the WaitGroup
counter is zero); however each task issues zero vendor requests — the
goroutine body is empty. -/
theorem claim_C7_amended :
    (∀ (n : Nat) (s : FanoutState), FanoutReach n s →
        (s.phase ≠ .spawnLoop → s.toSpawn = 0) ∧
        (s.phase = .returned →
          s.toSpawn = 0 ∧ s.running = 0 ∧ s.wgCounter = 0)) ∧
    (∀ serial : String, (hoboTaskBody serial).countP (fun e => isRequest e) = 0) := by
  constructor
  · intro n s hr
    obtain ⟨h1, h2, h3⟩ := fanout_inv hr
    refine ⟨h2, fun hp => ?_⟩
    have ht : s.toSpawn = 0 := h2 (by simp [hp])
    have hc : s.wgCounter = 0 := h3 hp
    refine ⟨ht, ?_, hc⟩
    rw [hc, ht] at h1
    omega
  · intro _
    rfl

/-- Witness for C7: a full run over one serial — spawn, reach the join,
task completion, release — ends in a returned state that the theorem then
certifies as fully joined; and the task body is requestless. -/
theorem claim_C7_witness :
    ((⟨0, 0, 0, .returned⟩ : FanoutState).toSpawn = 0 ∧
     (⟨0, 0, 0, .returned⟩ : FanoutState).running = 0 ∧
     (⟨0, 0, 0, .returned⟩ : FanoutState).wgCounter = 0) ∧
    (hoboTaskBody "dev1").countP (fun e => isRequest e) = 0 := by
  have h0 : FanoutReach 1 (fanoutInit 1) := FanoutReach.init
  have h1 : FanoutReach 1 ⟨0, 1, 1, .spawnLoop⟩ :=
    h0.step (FanoutStep.spawn 0 0 1)
  have h2 : FanoutReach 1 ⟨0, 1, 1, .waiting⟩ :=
    h1.step (FanoutStep.beginWait 1 1)
  have h3 : FanoutReach 1 ⟨0, 0, 0, .waiting⟩ :=
    h2.step (FanoutStep.taskDone 0 0 1 .waiting)
  have h4 : FanoutReach 1 ⟨0, 0, 0, .returned⟩ :=
    h3.step (FanoutStep.waitRelease 0 0)
  exact ⟨(claim_C7_amended.1 1 _ h4).2 rfl, claim_C7_amended.2 "dev1"⟩

/-- Claim C8 (confirmed): on both plugin instances the HTTP client is
constructed at most once — the first Gather call that passes the guards and
finds a nil client stores the client built from the configured timeout, and
every later call (also across call sequences) keeps the stored client
unchanged; over any call sequence at most one creation happens. -/
theorem claim_C8 :
    (∀ (s : SensorState) (env : ImonnitEnv) (cl : HTTPClient), s.c = some cl →
        ((imonnitGather s env).1).c = some cl) ∧
    (∀ (s : SensorState) (env : ImonnitEnv), s.c = none → ¬ s.Token = "" →
        ((imonnitGather s env).1).c = some ⟨s.HttpTimeout, s.HttpTimeout⟩) ∧
    (∀ (envs : List ImonnitEnv) (s : SensorState) (cl : HTTPClient),
        s.c = some cl → (imonnitGatherSeq s envs).c = some cl) ∧
    (∀ (envs : List ImonnitEnv) (s : SensorState),
        imonnitCreations s envs ≤ 1) ∧
    (∀ (st : HOBOState) (cl : HTTPClient), st.client = some cl →
        ((hoboGather st).1).client = some cl) ∧
    (∀ st : HOBOState, st.client = none →
        ((hoboGather st).1).client = some ⟨st.HTTPTimeout, st.HTTPTimeout⟩) ∧
    (∀ (n : Nat) (st : HOBOState) (cl : HTTPClient), st.client = some cl →
        (hoboGatherSeq st n).client = some cl) :=
  ⟨fun _ env _ h => imonnitGather_c_some env h,
   fun _ env h ht => imonnitGather_c_none env h ht,
   fun envs _ _ h => imonnitGatherSeq_c_some envs h,
   imonnitCreations_le_one,
   fun _ _ h => hoboGather_c_some h,
   fun _ h => hoboGather_c_none h,
   fun n _ _ h => hoboGatherSeq_c_some n h⟩

/-- Witness for C8 at concrete instances: an existing client survives a
call, a nil client is created from the configured timeout, a two-call
sequence creates at most once, and the hobolink client is created on the
first call. -/
theorem claim_C8_witness :
    ((imonnitGather ⟨some ⟨5, 5⟩, "srv", "tok", 9⟩ ⟨.error "down", 0⟩).1).c =
        some ⟨5, 5⟩ ∧
    ((imonnitGather ⟨none, "srv", "tok", 9⟩ ⟨.error "down", 0⟩).1).c =
        some ⟨9, 9⟩ ∧
    imonnitCreations ⟨none, "srv", "tok", 9⟩ [⟨.error "down", 0⟩, ⟨.error "up", 1⟩] ≤ 1 ∧
    ((hoboGather ⟨none, "u", "p", "s", "t", ["a"], 7⟩).1).client = some ⟨7, 7⟩ :=
  ⟨claim_C8.1 _ _ _ rfl,
   claim_C8.2.1 _ _ rfl (by decide),
   claim_C8.2.2.2.1 _ _,
   claim_C8.2.2.2.2.2.1 _ rfl⟩

/-- Claim C9 (confirmed): an iMonnit instance with an empty Token makes
`Gather` return the non-nil token error; on this path the instance state is
unchanged (in particular no HTTP client is created), no effect is performed
(no network request, zero accumulator calls), independently of the
environment. -/
theorem claim_C9 (s : SensorState) (env : ImonnitEnv) (h : s.Token = "") :
    imonnitGather s env =
      (s, [], .ret (some (.errMsg "token required for the imonnit API"))) := by
  simp [imonnitGather, h]

/-- Witness for C9 at a concrete tokenless instance. -/
theorem claim_C9_witness :
    imonnitGather ⟨none, "srv", "", 5⟩ ⟨.error "unreached", 0⟩ =
      (⟨none, "srv", "", 5⟩, [],
        .ret (some (.errMsg "token required for the imonnit API"))) :=
  claim_C9 _ _ rfl

/-- Claim C10 (confirmed): `HOBOlink.Gather` never calls the accumulator and
never issues a vendor request — client creation always succeeds, the
per-device tasks are empty, so every call performs no effect and returns
nil after the join. -/
theorem claim_C10 (st : HOBOState) :
    (hoboGather st).2.1 = [] ∧ (hoboGather st).2.2 = none :=
  hoboGather_silent st

/-- Claim C4, counterexample: a record whose reading contains the composite
marker `"kWh"` but splits into fewer than four comma segments makes
`ProcessResults` panic (index out of range at `vals[1]`, imonnit.go:108)
instead of completing: it aborts and emits no MetricPoint for the record. -/
theorem claim_C4_counterexample :
    ProcessResults 0 ⟨"SensorList", [⟨"M2", "kWh"⟩]⟩ = none := by decide

/-- Claim C4 (corrected): `ProcessResults` completes and emits at least one
MetricPoint per record only under the composite well-formedness the
unguarded indices require: for every record whose reading, when it contains
the `"kWh"` marker, splits on `","` into at least 4 segments with at least
4 space tokens in each of segments 2-4 (readings without the marker are
unconditionally fine), the run completes and each record contributes at
least one point; a composite-marked reading violating this panics. -/
theorem claim_C4_amended (ts : Nat) (sensors : SensorListRes)
    (hwf : ∀ sensor ∈ sensors.Result,
      goContains sensor.CurrentReading "kWh" = true →
        compositeWF sensor.CurrentReading) :
    ∃ ptss : List (List MetricPoint),
      ProcessResults ts sensors = some ptss.flatten ∧
      ptss.length = sensors.Result.length ∧ ∀ l ∈ ptss, 1 ≤ l.length :=
  processLoop_chunks (fun sensor hs => processSensor_emits (hwf sensor hs))

/-- Witness for C4: a well-formed composite record and a simple record both
complete, one chunk of points each. -/
theorem claim_C4_witness :
    ∃ ptss : List (List MetricPoint),
      ProcessResults 7 ⟨"SensorList",
        [⟨"M1", "12.5 kWh, Avg 1.5 A, Max 2.5 A, Min 0.5 A"⟩,
         ⟨"N2", "-4.2Â°C"⟩]⟩ = some ptss.flatten ∧
      ptss.length = 2 ∧ ∀ l ∈ ptss, 1 ≤ l.length :=
  claim_C4_amended 7 _ (by decide)

/-- Claim C5 (confirmed): numeric-parse failures never abort decoding and
never leak across sub-segments.  Every emitted field is the parse-or-zero
of its own token alone: a token that fails to parse contributes the zero
value (first conjunct), while the surrounding points are still emitted with
every other field carrying the parse of its own token (second conjunct for
composite readings whose indexing succeeds, third for simple readings). -/
theorem claim_C5 :
    (∀ t : String, goParseFloat t = none → goParseFloatD t = 0) ∧
    (∀ (ts : Nat) (sensor : SensorDetail) (v1 v2 v3 t1 t2 t3 : String),
      goContains sensor.CurrentReading "kWh" = true →
      (goSplit sensor.CurrentReading ",")[1]? = some v1 →
      (goSplit sensor.CurrentReading ",")[2]? = some v2 →
      (goSplit sensor.CurrentReading ",")[3]? = some v3 →
      (goSplit v1 " ")[3]? = some t1 →
      (goSplit v2 " ")[3]? = some t2 →
      (goSplit v3 " ")[3]? = some t3 →
      processSensor ts sensor =
        some [⟨"imonnit",
          [("current", goParseFloatD
            ((goSplit ((goSplit sensor.CurrentReading ",").getD 0 "") " ").getD 0 ""))],
          baseTags sensor.SensorName ++ [("unit", "kWh")], ts⟩,
         ⟨"imonnit",
          [("average", goParseFloatD t1), ("maximum", goParseFloatD t2),
           ("minimum", goParseFloatD t3)],
          baseTags sensor.SensorName ++ [("unit", "amps")], ts⟩]) ∧
    (∀ (ts : Nat) (sensor : SensorDetail),
      goContains sensor.CurrentReading "kWh" = false →
      processSensor ts sensor =
        some [⟨"imonnit",
          [("current", goParseFloatD ((goSplit sensor.CurrentReading "Â°").getD 0 ""))],
          baseTags sensor.SensorName ++ [("unit", "C")], ts⟩]) := by
  refine ⟨fun t h => by simp [goParseFloatD, h],
    fun ts sensor v1 v2 v3 t1 t2 t3 hk h1 h2 h3 h4 h5 h6 =>
      processSensor_composite hk h1 h2 h3 h4 h5 h6,
    fun ts sensor h => processSensor_simple h⟩

unseal Rat.mul Rat.inv Rat.add Rat.sub in
/-- Witness for C5: in a composite reading whose middle token fails to
parse, the failed field is zero, both neighbours keep their parsed values,
and both points are still emitted. -/
theorem claim_C5_witness :
    goParseFloat "x" = none ∧
    processSensor 3 ⟨"w", "1 kWh,a b c 4,a b c x,a b c 6"⟩ =
      some [⟨"imonnit", [("current", 1)], [("customer", "w"), ("unit", "kWh")], 3⟩,
            ⟨"imonnit", [("average", 4), ("maximum", 0), ("minimum", 6)],
              [("customer", "w"), ("unit", "amps")], 3⟩] := by
  constructor
  · rfl
  · rw [claim_C5.2.1 3 ⟨"w", "1 kWh,a b c 4,a b c x,a b c 6"⟩
      "a b c 4" "a b c x" "a b c 6" "4" "x" "6" rfl rfl rfl rfl rfl rfl rfl]
    decide

unseal Rat.mul Rat.inv Rat.add Rat.sub in
/-- Claim C3, counterexample: the reading `"-4.2°C"` of the claimed example
(with the genuine degree sign U+00B0) does yield exactly one point tagged
`unit=C`, but its field is `current=0`, not `current=-4.2`: the source
splits on the two-character sequence `"Â°"` (U+00C2 U+00B0, imonnit.go:118),
which does not occur in the reading, so the whole reading reaches
`strconv.ParseFloat` and fails to parse. -/
theorem claim_C3_counterexample :
    processSensor 0
        ⟨"Acme|US|Store12|ZoneA|Freezer|Refrigeration|Dairy|TempProbe|SN001",
         "-4.2°C"⟩ =
      some [⟨"imonnit", [("current", 0)],
        [("customer", "Acme"), ("country", "US"), ("store", "Store12"),
         ("zone", "ZoneA"), ("equipment", "Freezer"),
         ("equipmentType", "Refrigeration"), ("cargo", "Dairy"),
         ("sensor", "TempProbe"), ("sensorID", "SN001"), ("unit", "C")], 0⟩] ∧
    (0 : ℚ) ≠ -21/5 := by decide

/-- Claim C3 (corrected): the temperature marker the code actually splits on
is the two-character sequence `"Â°"`, not the degree sign alone.  For every
record whose reading does not contain `"kWh"` and has the form
`<num>Â°<rest>` with `<num>` a parsable numeral not containing `'Â'`,
exactly one MetricPoint is emitted, with the single field `current=<num>`
and the tag `unit=C` appended to the name-derived tags; on the claimed §8
example, whose reading carries a bare degree sign, the point is still
emitted with `unit=C` but with `current=0` (see the counterexample). -/
theorem claim_C3_amended (ts : Nat) (name n r : String) (q : ℚ)
    (hq : goParseFloat n = some q)
    (hn : 'Â' ∉ n.data)
    (hk : goContains (n ++ "Â°" ++ r) "kWh" = false) :
    processSensor ts ⟨name, n ++ "Â°" ++ r⟩ =
      some [⟨"imonnit", [("current", q)],
        baseTags name ++ [("unit", "C")], ts⟩] := by
  have hsep : ("Â°" : String).data = 'Â' :: ['°'] := rfl
  have hsplit : goSplit (n ++ "Â°" ++ r) "Â°" = n :: goSplit r "Â°" :=
    goSplit_append_sep hsep r hn
  rw [processSensor_simple hk]
  simp [hsplit, goParseFloatD, hq]

unseal Rat.mul Rat.inv Rat.add Rat.sub in
/-- Witness for C3: a reading carrying the two-character marker the code
splits on does produce `current=-4.2` under `unit=C`. -/
theorem claim_C3_witness :
    processSensor 0
        ⟨"Acme|US|Store12|ZoneA|Freezer|Refrigeration|Dairy|TempProbe|SN001",
         "-4.2" ++ "Â°" ++ "C"⟩ =
      some [⟨"imonnit", [("current", -21/5)],
        [("customer", "Acme"), ("country", "US"), ("store", "Store12"),
         ("zone", "ZoneA"), ("equipment", "Freezer"),
         ("equipmentType", "Refrigeration"), ("cargo", "Dairy"),
         ("sensor", "TempProbe"), ("sensorID", "SN001"), ("unit", "C")], 0⟩] := by
  rw [claim_C3_amended 0 _ "-4.2" "C" (-21/5) (by decide) (by decide) (by decide)]
  decide

theorem not_mem_data_append {c : Char} {a b : String}
    (ha : c ∉ a.data) (hb : c ∉ b.data) : c ∉ (a ++ b).data := by
  rw [String.data_append]
  intro hmem
  rcases List.mem_append.mp hmem with h | h
  · exact ha h
  · exact hb h

unseal Rat.mul Rat.inv Rat.add Rat.sub in
/-- Claim C1, counterexample: on the claimed format
`"12.5 kWh, Avg 1.5 A, Max 2.5 A, Min 0.5 A"` the second point's fields are
`average=0, maximum=0, minimum=0`, not `1.5 / 2.5 / 0.5`: the code parses the
4th space token of each comma segment (imonnit.go:108-110), which for this
format is the literal `"A"` (segment `" Avg 1.5 A"` splits into
`["", "Avg", "1.5", "A"]`), and the failed parse is discarded as zero. -/
theorem claim_C1_counterexample :
    processSensor 7 ⟨"M1", "12.5 kWh, Avg 1.5 A, Max 2.5 A, Min 0.5 A"⟩ =
      some [⟨"imonnit", [("current", 25/2)],
              [("customer", "M1"), ("unit", "kWh")], 7⟩,
            ⟨"imonnit", [("average", 0), ("maximum", 0), ("minimum", 0)],
              [("customer", "M1"), ("unit", "amps")], 7⟩] ∧
    (0 : ℚ) ≠ 3/2 := by decide

/-- Claim C1 (corrected): for every record whose CurrentReading is a
composite energy reading `<num> kWh, Avg <x> A, Max <y> A, Min <z> A` (with
`<num>` a parsable numeral and `<num>, <x>, <y>, <z>` free of commas and
spaces), `ProcessResults` emits exactly two MetricPoints sharing the same
timestamp: one with field `current=<num>` and tag `unit=kWh`, and one with
tag `unit=amps` whose fields `average`, `maximum`, `minimum` are all `0` —
not `<x>, <y>, <z>` — because each is the discarded failed parse of the 4th
space token `"A"` of its segment; the two points agree on every tag other
than `unit` (both carry the name-derived tags). -/
theorem claim_C1_amended (ts : Nat) (name n x y z : String) (qn : ℚ)
    (hq : goParseFloat n = some qn)
    (hn1 : ',' ∉ n.data) (hn2 : ' ' ∉ n.data)
    (hx1 : ',' ∉ x.data) (hx2 : ' ' ∉ x.data)
    (hy1 : ',' ∉ y.data) (hy2 : ' ' ∉ y.data)
    (hz1 : ',' ∉ z.data) (hz2 : ' ' ∉ z.data) :
    processSensor ts ⟨name,
      (n ++ " kWh") ++ "," ++ (" Avg " ++ x ++ " A" ++ "," ++
        (" Max " ++ y ++ " A" ++ "," ++ (" Min " ++ z ++ " A")))⟩ =
      some [⟨"imonnit", [("current", qn)],
              baseTags name ++ [("unit", "kWh")], ts⟩,
            ⟨"imonnit", [("average", 0), ("maximum", 0), ("minimum", 0)],
              baseTags name ++ [("unit", "amps")], ts⟩] := by
  have hsepC : ("," : String).data = ',' :: [] := rfl
  have hsepS : (" " : String).data = ' ' :: [] := rfl
  -- the reading contains the marker "kWh"
  have hkeq : ((n ++ " kWh") ++ "," ++ (" Avg " ++ x ++ " A" ++ "," ++
        (" Max " ++ y ++ " A" ++ "," ++ (" Min " ++ z ++ " A"))) : String) =
      (n ++ " ") ++ "kWh" ++ ("," ++ (" Avg " ++ x ++ " A" ++ "," ++
        (" Max " ++ y ++ " A" ++ "," ++ (" Min " ++ z ++ " A")))) := by
    apply String.ext
    simp only [String.data_append, List.append_assoc]
    rfl
  have hk : goContains ((n ++ " kWh") ++ "," ++ (" Avg " ++ x ++ " A" ++ "," ++
      (" Max " ++ y ++ " A" ++ "," ++ (" Min " ++ z ++ " A")))) "kWh" = true := by
    rw [hkeq]
    exact goContains_append (n ++ " ") "kWh" _
  -- the four comma segments
  have hA0 : ',' ∉ (n ++ " kWh").data := not_mem_data_append hn1 (by decide)
  have hA1 : ',' ∉ (" Avg " ++ x ++ " A").data :=
    not_mem_data_append (not_mem_data_append (by decide) hx1) (by decide)
  have hA2 : ',' ∉ (" Max " ++ y ++ " A").data :=
    not_mem_data_append (not_mem_data_append (by decide) hy1) (by decide)
  have hA3 : ',' ∉ (" Min " ++ z ++ " A").data :=
    not_mem_data_append (not_mem_data_append (by decide) hz1) (by decide)
  have hv : goSplit ((n ++ " kWh") ++ "," ++ (" Avg " ++ x ++ " A" ++ "," ++
      (" Max " ++ y ++ " A" ++ "," ++ (" Min " ++ z ++ " A")))) "," =
      [n ++ " kWh", " Avg " ++ x ++ " A", " Max " ++ y ++ " A",
       " Min " ++ z ++ " A"] := by
    rw [goSplit_append_sep hsepC _ hA0, goSplit_append_sep hsepC _ hA1,
      goSplit_append_sep hsepC _ hA2, goSplit_single hsepC hA3]
  have hv1 : (goSplit ((n ++ " kWh") ++ "," ++ (" Avg " ++ x ++ " A" ++ "," ++
      (" Max " ++ y ++ " A" ++ "," ++ (" Min " ++ z ++ " A")))) ",")[1]? =
      some (" Avg " ++ x ++ " A") := by rw [hv]; rfl
  have hv2 : (goSplit ((n ++ " kWh") ++ "," ++ (" Avg " ++ x ++ " A" ++ "," ++
      (" Max " ++ y ++ " A" ++ "," ++ (" Min " ++ z ++ " A")))) ",")[2]? =
      some (" Max " ++ y ++ " A") := by rw [hv]; rfl
  have hv3 : (goSplit ((n ++ " kWh") ++ "," ++ (" Avg " ++ x ++ " A" ++ "," ++
      (" Max " ++ y ++ " A" ++ "," ++ (" Min " ++ z ++ " A")))) ",")[3]? =
      some (" Min " ++ z ++ " A") := by rw [hv]; rfl
  -- the 4th space token of segments 2-4 is the literal "A"
  have he1 : (" Avg " ++ x ++ " A" : String) =
      "" ++ " " ++ ("Avg" ++ " " ++ (x ++ " " ++ "A")) := by
    apply String.ext
    simp only [String.data_append, List.append_assoc]
    rfl
  have ht1s : goSplit (" Avg " ++ x ++ " A") " " = ["", "Avg", x, "A"] := by
    rw [he1, goSplit_append_sep hsepS _ (by decide),
      goSplit_append_sep hsepS _ (by decide), goSplit_append_sep hsepS _ hx2,
      goSplit_single hsepS (by decide)]
  have he2 : (" Max " ++ y ++ " A" : String) =
      "" ++ " " ++ ("Max" ++ " " ++ (y ++ " " ++ "A")) := by
    apply String.ext
    simp only [String.data_append, List.append_assoc]
    rfl
  have ht2s : goSplit (" Max " ++ y ++ " A") " " = ["", "Max", y, "A"] := by
    rw [he2, goSplit_append_sep hsepS _ (by decide),
      goSplit_append_sep hsepS _ (by decide), goSplit_append_sep hsepS _ hy2,
      goSplit_single hsepS (by decide)]
  have he3 : (" Min " ++ z ++ " A" : String) =
      "" ++ " " ++ ("Min" ++ " " ++ (z ++ " " ++ "A")) := by
    apply String.ext
    simp only [String.data_append, List.append_assoc]
    rfl
  have ht3s : goSplit (" Min " ++ z ++ " A") " " = ["", "Min", z, "A"] := by
    rw [he3, goSplit_append_sep hsepS _ (by decide),
      goSplit_append_sep hsepS _ (by decide), goSplit_append_sep hsepS _ hz2,
      goSplit_single hsepS (by decide)]
  have ht1 : (goSplit (" Avg " ++ x ++ " A") " ")[3]? = some "A" := by
    rw [ht1s]; rfl
  have ht2 : (goSplit (" Max " ++ y ++ " A") " ")[3]? = some "A" := by
    rw [ht2s]; rfl
  have ht3 : (goSplit (" Min " ++ z ++ " A") " ")[3]? = some "A" := by
    rw [ht3s]; rfl
  -- the numeric prefix of the first segment
  have h0eq : (n ++ " kWh" : String) = n ++ " " ++ "kWh" := by
    apply String.ext
    simp only [String.data_append, List.append_assoc]
    rfl
  have h0s : goSplit (n ++ " kWh") " " = [n, "kWh"] := by
    rw [h0eq, goSplit_append_sep hsepS _ hn2, goSplit_single hsepS (by decide)]
  have hA : goParseFloat "A" = none := rfl
  rw [processSensor_composite hk hv1 hv2 hv3 ht1 ht2 ht3]
  simp only [hv, List.getD_cons_zero, h0s, goParseFloatD, hq, hA,
    Option.getD_some, Option.getD_none]

unseal Rat.mul Rat.inv Rat.add Rat.sub in
/-- Witness for C1 (amended) at the counterexample's numerals: the primary
point carries `current=12.5` under `unit=kWh`, the amps point carries three
zeros, and both share the timestamp and the name-derived tags. -/
theorem claim_C1_witness :
    processSensor 7 ⟨"M1",
      ("12.5" ++ " kWh") ++ "," ++ (" Avg " ++ "1.5" ++ " A" ++ "," ++
        (" Max " ++ "2.5" ++ " A" ++ "," ++ (" Min " ++ "0.5" ++ " A")))⟩ =
      some [⟨"imonnit", [("current", 25/2)],
              [("customer", "M1"), ("unit", "kWh")], 7⟩,
            ⟨"imonnit", [("average", 0), ("maximum", 0), ("minimum", 0)],
              [("customer", "M1"), ("unit", "amps")], 7⟩] := by
  rw [claim_C1_amended 7 "M1" "12.5" "1.5" "2.5" "0.5" (25/2) (by decide)
    (by decide) (by decide) (by decide) (by decide) (by decide) (by decide)
    (by decide) (by decide)]
  decide
